import Mathlib

/-!
Verification of the DataCleaner transformation pipeline
(`src/data_cleaner.py` of the Data-Pipeline repository).

The pandas `DataFrame` is embedded as a header of named, dtyped columns
together with a list of rows of optional cells (`none` models a missing
value / `NaN`).  Numeric values are exact rationals; the statistics used
by the cleaner (linear-interpolation quantile, median, mode, Pearson
correlation threshold tests) are reproduced exactly over `ℚ`, with the
square root of the correlation formula eliminated by squaring (for a
nonnegative threshold `t`, `|corr| > t ↔ cov² > t² · varX · varY` whenever
both variances are positive; an undefined correlation — a zero variance —
compares as false, matching `NaN > t`).

Each cleaning method of the `DataCleaner` class wraps its whole body in
`try/except Exception`, so no exception ever escapes to the caller; the
embedding makes this explicit: every method returns a `MethodOut` whose
`raised` field is the exception propagating out of the method (always
`none`, because of the catch-all handler) and whose `log` field collects
the `logger.error` messages emitted by the handler.
-/

set_option maxHeartbeats 1000000
set_option maxRecDepth 2048

namespace DataPipeline

/-- pandas dtypes that occur in this repository's data model
(`data_io_manager.py` maps `object`, `int64`, `int32`, `float64`,
`float32` and `datetime64[ns]` to PostgreSQL types; `bool` arises from
CSV/Parquet extraction). -/
inductive Dtype where
  | float64
  | int64
  | obj
  | boolDt
  | int32
  | float32
  | datetime64
deriving DecidableEq

/-- A non-missing cell value: a (rational) number, a string, or a boolean. -/
inductive Val where
  | num (q : ℚ)
  | str (s : String)
  | boolV (b : Bool)
deriving DecidableEq

/-- A cell: `none` is a missing value (`NaN`/`None` in pandas). -/
abbrev Cell := Option Val

/-- A row of cells, aligned with the header. -/
abbrev Row := List Cell

/-- A column label: name plus pandas dtype. -/
structure Col where
  name : String
  dtype : Dtype
deriving DecidableEq

/-- The embedding of a pandas `DataFrame`: a header and a list of rows. -/
structure DataFrame where
  header : List Col
  rows : List Row
deriving DecidableEq

/-- Well-formedness: every row has exactly one cell per header column.
pandas DataFrames are always rectangular. -/
def DataFrame.Wf (df : DataFrame) : Prop :=
  ∀ r ∈ df.rows, r.length = df.header.length

instance (df : DataFrame) : Decidable df.Wf := by
  unfold DataFrame.Wf; infer_instance

/-- Index of the column with the given name (`df[name]` lookup);
`none` models the `KeyError` case. -/
def findCol (df : DataFrame) (name : String) : Option Nat :=
  df.header.findIdx? (fun c => c.name = name)

/-- The cells of column `i`, top to bottom (`df.iloc[:, i]`). -/
def colAt (df : DataFrame) (i : Nat) : List Cell :=
  df.rows.map (fun r => r.getD i none)

/-- Replace column `i` cell-wise by `g` (an in-place per-column update). -/
def mapColAt (df : DataFrame) (i : Nat) (g : Cell → Cell) : DataFrame :=
  { df with rows := df.rows.map (fun r => r.set i (g (r.getD i none))) }

/-- `df.drop(columns=names)`: remove every column whose name is listed. -/
def dropColumns (df : DataFrame) (names : List String) : DataFrame :=
  { header := df.header.filter (fun c => decide (c.name ∉ names)),
    rows := df.rows.map (fun r =>
      ((df.header.zip r).filter (fun p => decide (p.1.name ∉ names))).map
        (fun p => p.2)) }

/-! ### Statistics over exact rationals -/

/-- Insert into a sorted list of rationals. -/
def insertQ (x : ℚ) : List ℚ → List ℚ
  | [] => [x]
  | y :: r => if x ≤ y then x :: y :: r else y :: insertQ x r

/-- Ascending insertion sort (the sort underlying quantile computation). -/
def sortQ : List ℚ → List ℚ
  | [] => []
  | x :: r => insertQ x (sortQ r)

/-- Linear-interpolation quantile of a nonempty *sorted* list `s` at
probability `p` (numpy/pandas default `interpolation='linear'`):
with `h = p·(n−1)`, the result is `s[⌊h⌋] + (h−⌊h⌋)·(s[⌊h⌋+1] − s[⌊h⌋])`. -/
def interpolate (s : List ℚ) (p : ℚ) : ℚ :=
  let n := s.length
  let h := p * ((n : ℚ) - 1)
  if h ≤ 0 then s.headD 0
  else if ((n : ℚ) - 1) ≤ h then s.getLastD 0
  else
    let k := h.floor.toNat
    let f := h - (h.floor : ℚ)
    let a := s.getD k 0
    let b := s.getD (k + 1) 0
    a + f * (b - a)

/-- `Series.quantile(p)` over the non-missing values `xs`: `none` when there
are no values (pandas returns `NaN`). -/
def quantileOpt (xs : List ℚ) (p : ℚ) : Option ℚ :=
  match sortQ xs with
  | [] => none
  | s => some (interpolate s p)

/-- `Series.median()` over the non-missing values: the 0.5 linear quantile. -/
def medianOpt (xs : List ℚ) : Option ℚ :=
  quantileOpt xs (1 / 2)

/-- The numeric values of a column, skipping missing and non-numeric cells
(pandas statistics skip `NaN`). -/
def numsOf (cells : List Cell) : List ℚ :=
  cells.filterMap (fun c =>
    match c with
    | some (Val.num q) => some q
    | _ => none)

/-- Numeric extraction that fails (pandas `TypeError`) when a non-missing,
non-numeric value is present — `quantile`/`median` raise on object data. -/
def strictNums (cells : List Cell) : Except String (List ℚ) :=
  if cells.all (fun c =>
      match c with
      | some (Val.num _) => true
      | none => true
      | _ => false)
  then Except.ok (numsOf cells)
  else Except.error "TypeError: could not compute a numeric statistic"

/-- Clip a rational into the optional bounds, lower bound first then upper
(`Series.clip(lower, upper)`); a missing (`NaN`) bound does not clip. -/
def clipQ (lo hi : Option ℚ) (q : ℚ) : ℚ :=
  let q1 := match lo with
    | some l => max q l
    | none => q
  match hi with
  | some h => min q1 h
  | none => q1

/-- Cell-wise clip: numbers are clipped, missing and non-numeric cells are
returned unchanged (`clip` keeps `NaN` as `NaN`). -/
def clipCell (lo hi : Option ℚ) (c : Cell) : Cell :=
  match c with
  | some (Val.num q) => some (Val.num (clipQ lo hi q))
  | other => other

/-! ### Mode (`Series.mode()[0]`) -/

/-- The ascending order pandas uses to sort the tied modes: numbers by the
rational order, strings lexicographically, booleans with `false < true`
(values of different kinds are ranked `num < str < bool`; the claims only
ever compare values of a single kind). -/
def valLe (a b : Val) : Bool :=
  match a, b with
  | Val.num x, Val.num y => decide (x ≤ y)
  | Val.str x, Val.str y => decide (x ≤ y)
  | Val.boolV x, Val.boolV y => !x || y
  | Val.num _, _ => true
  | _, Val.num _ => false
  | Val.str _, _ => true
  | _, Val.str _ => false

/-- Minimum of `a :: l` under `valLe` — `mode()` sorts ascending and `[0]`
takes the first, i.e. least, element. -/
def pickMin (a : Val) (l : List Val) : Val :=
  l.foldl (fun m v => if valLe m v then m else v) a

/-- Keep the elements not seen before, threading the set of already-seen
elements — the shape of the pandas `duplicated()` hashtable scan. -/
def dedupSeen {α : Type} [DecidableEq α] : List α → List α → List α
  | _, [] => []
  | seen, a :: r =>
    if a ∈ seen then dedupSeen seen r
    else a :: dedupSeen (a :: seen) r

/-- Keep the first occurrence of each element, dropping later duplicates.
This is the semantics of pandas `drop_duplicates()` (keep='first') and the
first-appearance order of distinct values inside `Series.mode()`. -/
def dedupFirst {α : Type} [DecidableEq α] (l : List α) : List α :=
  dedupSeen [] l

/-- The specification form of keep-first deduplication: keep the head and
purge its later duplicates before recursing. -/
def keepFirstOccurrences {α : Type} [DecidableEq α] : List α → List α
  | [] => []
  | a :: r => a :: keepFirstOccurrences (r.filter (fun x => decide (x ≠ a)))
termination_by l => l.length
decreasing_by
  simp only [List.length_cons]
  exact Nat.lt_succ_of_le (List.length_filter_le _ _)

/-- `mode()[0]` on the list of tied most-frequent values: the least one
(ascending sort, then first entry); the empty list is the all-missing
case, where `[0]` raises. -/
def modePick : List Val → Except String Val
  | [] => Except.error "KeyError: 0"
  | c :: cs => Except.ok (pickMin c cs)

/-- The tied most-frequent values among the distinct values `uniq` of the
column values `vs`. -/
def modeAux (vs : List Val) : List Val → Except String Val
  | [] => Except.error "KeyError: 0"
  | u :: us =>
    modePick ((u :: us).filter (fun v => decide (vs.count v =
      (us.map (fun w => vs.count w)).foldl max (vs.count u))))

/-- `Series.mode()[0]` over a column: the least (ascending sort, first
entry) among the most frequent non-missing values; fails with the
error of `mode()[0]` when every cell is missing. -/
def modeOf (cells : List Cell) : Except String Val :=
  modeAux (cells.filterMap id) (dedupFirst (cells.filterMap id))

/-! ### Pearson correlation threshold test (`DataFrame.corr`) -/

/-- The rows where both columns have a numeric value — pandas `corr`
computes each pairwise coefficient over pairwise-complete observations. -/
def pairedNums (xs ys : List Cell) : List (ℚ × ℚ) :=
  (xs.zip ys).filterMap (fun p =>
    match p with
    | (some (Val.num a), some (Val.num b)) => some (a, b)
    | _ => none)

/-- `n·Σxy − Σx·Σy`, the covariance scaled by `n²`. -/
def covS (ps : List (ℚ × ℚ)) : ℚ :=
  (ps.length : ℚ) * (ps.map (fun p => p.1 * p.2)).sum
    - (ps.map (fun p => p.1)).sum * (ps.map (fun p => p.2)).sum

/-- `n·Σx² − (Σx)²`, the variance of the first coordinates scaled by `n²`. -/
def varXS (ps : List (ℚ × ℚ)) : ℚ :=
  (ps.length : ℚ) * (ps.map (fun p => p.1 * p.1)).sum
    - (ps.map (fun p => p.1)).sum * (ps.map (fun p => p.1)).sum

/-- `n·Σy² − (Σy)²`, the variance of the second coordinates scaled by `n²`. -/
def varYS (ps : List (ℚ × ℚ)) : ℚ :=
  (ps.length : ℚ) * (ps.map (fun p => p.2 * p.2)).sum
    - (ps.map (fun p => p.2)).sum * (ps.map (fun p => p.2)).sum

/-- `upper[col].abs() > threshold` for one matrix entry: the exact test
`|corr(xs,ys)| > t`.  Since `corr = cov/√(varX·varY)`, for `0 ≤ t` this is
`cov² > t²·varX·varY` when both variances are positive; with a zero
variance the coefficient is `NaN` and `NaN > t` is false; for `t < 0` a
defined `|corr| ≥ 0 > t` always passes. -/
def corrAbsGt (xs ys : List Cell) (t : ℚ) : Bool :=
  let ps := pairedNums xs ys
  if 0 < varXS ps ∧ 0 < varYS ps then
    if t < 0 then true
    else decide (t ^ 2 * varXS ps * varYS ps < covS ps ^ 2)
  else false

/-! ### The `DataCleaner` class -/

/-- The state of a `DataCleaner` object: the owned DataFrame plus the
column classification computed once by `__init__`. -/
structure Cleaner where
  df : DataFrame
  numericCols : List String
  stringCols : List String
deriving DecidableEq

/-- `select_dtypes(include=['float64', 'int64']).columns`. -/
def numericColsOf (df : DataFrame) : List String :=
  (df.header.filter (fun c =>
    decide (c.dtype = Dtype.float64 ∨ c.dtype = Dtype.int64))).map Col.name

/-- `select_dtypes(include=['object']).columns`. -/
def stringColsOf (df : DataFrame) : List String :=
  (df.header.filter (fun c => decide (c.dtype = Dtype.obj))).map Col.name

/-- `DataCleaner.__init__`: store the DataFrame and classify its columns
by dtype.  (The `df.copy()` aliasing behavior is modelled separately by
the heap semantics below.) -/
def DataCleaner.init (df : DataFrame) : Cleaner :=
  { df := df, numericCols := numericColsOf df, stringCols := stringColsOf df }

/-- Python's `columns or default`: `None` *and the empty list* are falsy,
so both select the default column set. -/
def pyOr (columns : Option (List String)) (dflt : List String) : List String :=
  match columns with
  | some (c :: cs) => c :: cs
  | _ => dflt

/-- The observable outcome of one method call: the updated object state,
the exception escaping to the caller (always `none` — every method body
is wrapped in `try/except Exception`), and the `logger.error` messages. -/
structure MethodOut where
  cleaner : Cleaner
  raised : Option String
  log : List String
deriving DecidableEq

/-! #### `fill_missing` -/

/-- One iteration of the median loop:
`self.df[col].fillna(self.df[col].median(), inplace=True)`.
A missing column name raises `KeyError`; a non-numeric column makes
`median()` raise; an all-missing column yields a `NaN` median and
`fillna(NaN)` changes nothing (no exception). -/
def fillColMedian (df : DataFrame) (name : String) : Except String DataFrame :=
  match findCol df name with
  | none => Except.error ("KeyError: " ++ name)
  | some i =>
    match strictNums (colAt df i) with
    | Except.error e => Except.error e
    | Except.ok xs =>
      match medianOpt xs with
      | none => Except.ok df
      | some m => Except.ok (mapColAt df i (fun c =>
          match c with
          | none => some (Val.num m)
          | some v => some v))

/-- One iteration of the mode loop:
`self.df[col].fillna(self.df[col].mode()[0], inplace=True)`.
A missing column raises `KeyError`; on an all-missing column `mode()` is
empty and `mode()[0]` raises. -/
def fillColMode (df : DataFrame) (name : String) : Except String DataFrame :=
  match findCol df name with
  | none => Except.error ("KeyError: " ++ name)
  | some i =>
    match modeOf (colAt df i) with
    | Except.error e => Except.error e
    | Except.ok m => Except.ok (mapColAt df i (fun c =>
        match c with
        | none => some m
        | some v => some v))

/-- The `for col in target_cols` loop, stepping a per-column action; on the
first exception the loop stops with the DataFrame as mutated so far and
the error (to be caught by the method's `except` handler). -/
def fillLoop (step : DataFrame → String → Except String DataFrame) :
    DataFrame → List String → DataFrame × Option String
  | df, [] => (df, none)
  | df, c :: cs =>
    match step df c with
    | Except.ok df2 => fillLoop step df2 cs
    | Except.error e => (df, some e)

/-- `DataCleaner.fill_missing(strategy, columns)`.  The whole body runs
inside `try/except Exception`, so nothing is ever raised to the caller:
an invalid strategy raises `ValueError` which the method's own handler
immediately catches and logs, and a failing column stops the loop with
the error logged. -/
def fill_missing (st : Cleaner) (strategy : String)
    (columns : Option (List String)) : MethodOut :=
  if strategy = "median" then
    match fillLoop fillColMedian st.df (pyOr columns st.numericCols) with
    | (df2, none) => ⟨{ st with df := df2 }, none, []⟩
    | (df2, some e) =>
      ⟨{ st with df := df2 }, none,
        ["Error while filling missing values: " ++ e]⟩
  else if strategy = "mode" then
    match fillLoop fillColMode st.df (pyOr columns st.stringCols) with
    | (df2, none) => ⟨{ st with df := df2 }, none, []⟩
    | (df2, some e) =>
      ⟨{ st with df := df2 }, none,
        ["Error while filling missing values: " ++ e]⟩
  else
    ⟨st, none,
      ["Error while filling missing values: Invalid strategy. Choose 'median' or 'mode'."]⟩

/-! #### `cap_outliers` -/

/-- One iteration of the capping loop: compute the two linear-interpolation
quantiles of the column and `clip` it to them.  A missing column raises
`KeyError`, a non-numeric column makes `quantile` raise; an all-missing
column yields `NaN` bounds and `clip` with `NaN` bounds is a no-op. -/
def capCol (plo phi : ℚ) (df : DataFrame) (name : String) :
    Except String DataFrame :=
  match findCol df name with
  | none => Except.error ("KeyError: " ++ name)
  | some i =>
    match strictNums (colAt df i) with
    | Except.error e => Except.error e
    | Except.ok xs =>
      Except.ok (mapColAt df i
        (clipCell (quantileOpt xs plo) (quantileOpt xs phi)))

/-- `DataCleaner.cap_outliers(lower_percentile, upper_percentile, columns)`:
the capping loop under the catch-all handler. -/
def cap_outliers (st : Cleaner) (plo phi : ℚ)
    (columns : Option (List String)) : MethodOut :=
  match fillLoop (capCol plo phi) st.df (pyOr columns st.numericCols) with
  | (df2, none) => ⟨{ st with df := df2 }, none, []⟩
  | (df2, some e) =>
    ⟨{ st with df := df2 }, none, ["Error while capping outliers: " ++ e]⟩

/-! #### `remove_duplicate_rows` -/

/-- `DataCleaner.remove_duplicate_rows`: `df.drop_duplicates(inplace=True)`
keeps the first occurrence of each row and drops later exact duplicates
(row equality is cell-wise, with missing equal to missing); the body
cannot raise. -/
def remove_duplicate_rows (st : Cleaner) : MethodOut :=
  ⟨{ st with df := { st.df with rows := dedupFirst st.df.rows } }, none, []⟩

/-! #### `remove_highly_correlated_features` -/

/-- `colCells df name`: the cells of the named column (used to build the
correlation matrix `self.df[self.numeric_cols].corr()`). -/
def colCells (df : DataFrame) (name : String) : List Cell :=
  match findCol df name with
  | none => []
  | some i => colAt df i

/-- The drop-list scan over the upper triangle: a column is marked when
some *earlier* numeric column correlates with it beyond the threshold
(`to_drop = [col for col in upper.columns if any(upper[col].abs() > threshold)]`).
`earlier` accumulates the columns already passed; the matrix is the one of
the input DataFrame, never recomputed after a marking. -/
def corrDropGo (df : DataFrame) (t : ℚ) :
    List String → List String → List String
  | _, [] => []
  | earlier, c :: rest =>
    if earlier.any (fun e => corrAbsGt (colCells df e) (colCells df c) t) then
      c :: corrDropGo df t (earlier ++ [c]) rest
    else
      corrDropGo df t (earlier ++ [c]) rest

/-- The complete `to_drop` list for the given numeric column order. -/
def corrDrop (df : DataFrame) (names : List String) (t : ℚ) : List String :=
  corrDropGo df t [] names

/-- `if not self.numeric_cols.any()`: pandas `Index.any()` is elementwise
truthiness, so the guard passes iff some numeric column has a nonempty
name. -/
def anyTruthy (names : List String) : Bool :=
  names.any (fun s => decide (s ≠ ""))

/-- `DataCleaner.remove_highly_correlated_features(threshold)`: early
return when the guard fails; `KeyError` (caught and logged) if a recorded
numeric column is gone from the DataFrame; otherwise drop, in one pass,
every numeric column correlated beyond the threshold with an earlier one. -/
def remove_highly_correlated_features (st : Cleaner) (t : ℚ) : MethodOut :=
  if anyTruthy st.numericCols = false then ⟨st, none, []⟩
  else if st.numericCols.all (fun c => (findCol st.df c).isSome) = false then
    ⟨st, none, ["Error while removing highly correlated features: KeyError"]⟩
  else
    ⟨{ st with df := dropColumns st.df (corrDrop st.df st.numericCols t) },
      none, []⟩

/-! #### `clean_data` -/

/-- State after stage 1 of `clean_data`: `cap_outliers()` with the default
percentiles 0.01 and 0.99 on the numeric columns. -/
def cleanS1 (df : DataFrame) : Cleaner :=
  (cap_outliers (DataCleaner.init df) (1 / 100) (99 / 100) none).cleaner

/-- State after stage 2: `fill_missing(strategy=strategy)`. -/
def cleanS2 (df : DataFrame) (strategy : String) : Cleaner :=
  (fill_missing (cleanS1 df) strategy none).cleaner

/-- State after stage 3: `remove_duplicate_rows()`. -/
def cleanS3 (df : DataFrame) (strategy : String) : Cleaner :=
  (remove_duplicate_rows (cleanS2 df strategy)).cleaner

/-- State after stage 4: `remove_highly_correlated_features()` with the
default threshold 0.9. -/
def cleanS4 (df : DataFrame) (strategy : String) : Cleaner :=
  (remove_highly_correlated_features (cleanS3 df strategy) (9 / 10)).cleaner

/-- `DataCleaner.clean_data(strategy)`: the four passes in fixed order,
returning the final DataFrame. -/
def clean_data (df : DataFrame) (strategy : String) : DataFrame :=
  (cleanS4 df strategy).df

/-! ### Aliasing semantics of `__init__`

`self.df = df.copy()` allocates a fresh DataFrame object holding the same
value, and every method mutates only that fresh object.  A small heap of
DataFrame objects (addresses are indices) makes this observable: had the
constructor stored the caller's reference instead of a copy, the pipeline
would overwrite the caller's object. -/

/-- A heap of DataFrame objects; an address is an index into the list. -/
structure Heap where
  objs : List DataFrame
deriving DecidableEq

/-- Dereference an address (reads of dangling addresses never occur in the
modelled runs; the default is an empty frame). -/
def heapGet (h : Heap) (a : Nat) : DataFrame :=
  h.objs.getD a ⟨[], []⟩

/-- Overwrite the object at an address (in-place mutation of `self.df`). -/
def heapSet (h : Heap) (a : Nat) (df : DataFrame) : Heap :=
  ⟨h.objs.set a df⟩

/-- A `DataCleaner` object as it sits in memory: a *reference* to its
DataFrame plus the column classification. -/
structure CleanerRef where
  dfRef : Nat
  numericCols : List String
  stringCols : List String
deriving DecidableEq

/-- `DataCleaner.__init__(df)` under the heap semantics: `df.copy()`
allocates a fresh object with the same value and `self.df` points to it. -/
def initRef (h : Heap) (dfAddr : Nat) : Heap × CleanerRef :=
  let df := heapGet h dfAddr
  (⟨h.objs ++ [df]⟩,
    ⟨h.objs.length, numericColsOf df, stringColsOf df⟩)

/-- The value-level view of the object: read `self.df` from the heap. -/
def readCleaner (h : Heap) (c : CleanerRef) : Cleaner :=
  ⟨heapGet h c.dfRef, c.numericCols, c.stringCols⟩

/-- Run one method in place: read `self.df`, compute, write back through
the same reference — the only address a method ever writes. -/
def runMethod (h : Heap) (c : CleanerRef) (f : Cleaner → Cleaner) : Heap :=
  heapSet h c.dfRef (f (readCleaner h c)).df

/-- `cap_outliers()` with the `clean_data` defaults, on the heap. -/
def runCap (h : Heap) (c : CleanerRef) : Heap :=
  runMethod h c (fun st => (cap_outliers st (1 / 100) (99 / 100) none).cleaner)

/-- `fill_missing(strategy=strategy)` on the heap. -/
def runFill (h : Heap) (c : CleanerRef) (strategy : String) : Heap :=
  runMethod h c (fun st => (fill_missing st strategy none).cleaner)

/-- `remove_duplicate_rows()` on the heap. -/
def runDedup (h : Heap) (c : CleanerRef) : Heap :=
  runMethod h c (fun st => (remove_duplicate_rows st).cleaner)

/-- `remove_highly_correlated_features()` with the default threshold,
on the heap. -/
def runPrune (h : Heap) (c : CleanerRef) : Heap :=
  runMethod h c (fun st => (remove_highly_correlated_features st (9 / 10)).cleaner)

/-- `clean_data(strategy)` on the heap: the four stages in order. -/
def runCleanData (h : Heap) (c : CleanerRef) (strategy : String) : Heap :=
  runPrune (runDedup (runFill (runCap h c) c strategy) c) c

/-! ### Concrete example frames -/

/-- One float64 column `a` with the two values 0 and 100. -/
def capDf : DataFrame :=
  ⟨[⟨"a", Dtype.float64⟩], [[some (Val.num 0)], [some (Val.num 100)]]⟩

/-- One object column `c` with the values `"x"`, missing, `"x"`. -/
def modeAbortDf : DataFrame :=
  ⟨[⟨"c", Dtype.obj⟩],
    [[some (Val.str "x")], [none], [some (Val.str "x")]]⟩

/-- `modeAbortDf` after its column `c` has been mode-filled. -/
def modeFilledDf : DataFrame :=
  ⟨[⟨"c", Dtype.obj⟩],
    [[some (Val.str "x")], [some (Val.str "x")], [some (Val.str "x")]]⟩

/-- One object column where `"b"` is encountered before `"a"` and both
occur once, plus one missing cell. -/
def tieDf : DataFrame :=
  ⟨[⟨"c", Dtype.obj⟩],
    [[some (Val.str "b")], [some (Val.str "a")], [none]]⟩

/-- Two int64 columns with Pearson correlation exactly 0.95:
`x = 1..5`, `y = (−2, −1, 0, 2, 6)`. -/
def corrDf : DataFrame :=
  ⟨[⟨"x", Dtype.int64⟩, ⟨"y", Dtype.int64⟩],
    [[some (Val.num 1), some (Val.num (-2))],
     [some (Val.num 2), some (Val.num (-1))],
     [some (Val.num 3), some (Val.num 0)],
     [some (Val.num 4), some (Val.num 2)],
     [some (Val.num 5), some (Val.num 6)]]⟩

/-- A bool column and an entirely missing float64 column. -/
def classDf : DataFrame :=
  ⟨[⟨"flag", Dtype.boolDt⟩, ⟨"empty", Dtype.float64⟩],
    [[some (Val.boolV true), none], [some (Val.boolV false), none]]⟩

/-- One float64 column `m` with values 1, missing, 3 (median 2). -/
def medDf : DataFrame :=
  ⟨[⟨"m", Dtype.float64⟩],
    [[some (Val.num 1)], [none], [some (Val.num 3)]]⟩

/-- An entirely missing float64 column `e` next to a numeric column `m`
with values 1, missing, 3. -/
def allMissDf : DataFrame :=
  ⟨[⟨"e", Dtype.float64⟩, ⟨"m", Dtype.float64⟩],
    [[none, some (Val.num 1)], [none, none], [none, some (Val.num 3)]]⟩

/-- The numeric values of the filled column at the positions that were
non-missing in the original column. -/
def keptNums (orig filled : List Cell) : List ℚ :=
  (orig.zip filled).filterMap (fun p =>
    match p.1, p.2 with
    | some _, some (Val.num q) => some q
    | _, _ => none)

/-! ### Lemmas about keep-first deduplication -/

theorem dedupSeen_sublist {α : Type} [DecidableEq α] :
    ∀ (l seen : List α), (dedupSeen seen l).Sublist l
  | [], _ => by rw [dedupSeen]
  | a :: r, seen => by
    rw [dedupSeen]
    by_cases ha : a ∈ seen
    · rw [if_pos ha]
      exact (dedupSeen_sublist r seen).cons a
    · rw [if_neg ha]
      exact (dedupSeen_sublist r (a :: seen)).cons₂ a

theorem mem_dedupSeen {α : Type} [DecidableEq α] :
    ∀ (l seen : List α) (x : α),
      x ∈ dedupSeen seen l ↔ x ∉ seen ∧ x ∈ l
  | [], seen, x => by rw [dedupSeen]; simp
  | a :: r, seen, x => by
    rw [dedupSeen]
    by_cases ha : a ∈ seen
    · rw [if_pos ha, mem_dedupSeen r seen x]
      constructor
      · rintro ⟨h1, h2⟩
        exact ⟨h1, List.mem_cons_of_mem a h2⟩
      · rintro ⟨h1, h2⟩
        rcases List.mem_cons.mp h2 with h3 | h3
        · exact absurd (h3 ▸ ha) h1
        · exact ⟨h1, h3⟩
    · rw [if_neg ha]
      constructor
      · intro h
        rcases List.mem_cons.mp h with h1 | h1
        · exact ⟨h1 ▸ ha, h1 ▸ List.mem_cons_self a r⟩
        · rcases (mem_dedupSeen r (a :: seen) x).mp h1 with ⟨h2, h3⟩
          exact ⟨fun hx => h2 (List.mem_cons_of_mem a hx),
            List.mem_cons_of_mem a h3⟩
      · rintro ⟨h1, h2⟩
        rcases List.mem_cons.mp h2 with h3 | h3
        · exact h3 ▸ List.mem_cons_self a _
        · by_cases hxa : x = a
          · exact hxa ▸ List.mem_cons_self a _
          · refine List.mem_cons_of_mem a
              ((mem_dedupSeen r (a :: seen) x).mpr ⟨?_, h3⟩)
            intro hx
            rcases List.mem_cons.mp hx with h4 | h4
            · exact hxa h4
            · exact h1 h4

theorem dedupSeen_nodup {α : Type} [DecidableEq α] :
    ∀ (l seen : List α), (dedupSeen seen l).Nodup
  | [], _ => by rw [dedupSeen]; exact List.nodup_nil
  | a :: r, seen => by
    rw [dedupSeen]
    by_cases ha : a ∈ seen
    · rw [if_pos ha]; exact dedupSeen_nodup r seen
    · rw [if_neg ha]
      refine List.Nodup.cons ?_ (dedupSeen_nodup r (a :: seen))
      intro hmem
      exact ((mem_dedupSeen r (a :: seen) a).mp hmem).1
        (List.mem_cons_self a seen)

theorem dedupSeen_eq_self {α : Type} [DecidableEq α] :
    ∀ (l seen : List α), l.Nodup → (∀ x ∈ l, x ∉ seen) →
      dedupSeen seen l = l
  | [], _, _, _ => by rw [dedupSeen]
  | a :: r, seen, hnd, hout => by
    rw [dedupSeen, if_neg (hout a (List.mem_cons_self a r))]
    have ha : a ∉ r := (List.nodup_cons.mp hnd).1
    refine congrArg (a :: ·)
      (dedupSeen_eq_self r (a :: seen) (List.nodup_cons.mp hnd).2 ?_)
    intro x hx hmem
    rcases List.mem_cons.mp hmem with h1 | h1
    · exact ha (h1 ▸ hx)
    · exact hout x (List.mem_cons_of_mem a hx) h1

theorem dedupFirst_sublist {α : Type} [DecidableEq α] (l : List α) :
    (dedupFirst l).Sublist l :=
  dedupSeen_sublist l []

theorem mem_dedupFirst {α : Type} [DecidableEq α] (l : List α) (x : α) :
    x ∈ dedupFirst l ↔ x ∈ l := by
  rw [dedupFirst, mem_dedupSeen l [] x]
  simp

theorem dedupFirst_nodup {α : Type} [DecidableEq α] (l : List α) :
    (dedupFirst l).Nodup :=
  dedupSeen_nodup l []

theorem dedupFirst_of_nodup {α : Type} [DecidableEq α] (l : List α)
    (h : l.Nodup) : dedupFirst l = l :=
  dedupSeen_eq_self l [] h (by simp)

theorem dedupFirst_idem {α : Type} [DecidableEq α] (l : List α) :
    dedupFirst (dedupFirst l) = dedupFirst l :=
  dedupFirst_of_nodup _ (dedupFirst_nodup l)

theorem dedupFirst_length_le {α : Type} [DecidableEq α] (l : List α) :
    (dedupFirst l).length ≤ l.length :=
  (dedupFirst_sublist l).length_le

theorem dedupSeen_eq_keepFirst {α : Type} [DecidableEq α] :
    ∀ (l seen : List α),
      dedupSeen seen l =
        keepFirstOccurrences (l.filter (fun x => decide (x ∉ seen)))
  | [], seen => by rw [dedupSeen]; simp [keepFirstOccurrences]
  | a :: r, seen => by
    rw [dedupSeen]
    by_cases ha : a ∈ seen
    · rw [if_pos ha, List.filter_cons_of_neg (by simpa using ha)]
      exact dedupSeen_eq_keepFirst r seen
    · rw [if_neg ha, List.filter_cons_of_pos (by simpa using ha),
        keepFirstOccurrences]
      refine congrArg (a :: ·) ?_
      rw [dedupSeen_eq_keepFirst r (a :: seen)]
      refine congrArg keepFirstOccurrences ?_
      rw [List.filter_filter]
      refine List.filter_congr ?_
      intro x _
      by_cases h1 : x = a <;> by_cases h2 : x ∈ seen <;>
        simp [h1, h2]

/-- `dedupFirst` is exactly keep-the-first-occurrence deduplication. -/
theorem dedupFirst_eq_keepFirst {α : Type} [DecidableEq α] (l : List α) :
    dedupFirst l = keepFirstOccurrences l := by
  rw [dedupFirst, dedupSeen_eq_keepFirst l []]
  refine congrArg keepFirstOccurrences ?_
  rw [List.filter_eq_self]
  intro x _
  simp

/-! ### Lemmas about the sort and the quantile -/

theorem length_insertQ (x : ℚ) : ∀ l : List ℚ,
    (insertQ x l).length = l.length + 1
  | [] => rfl
  | y :: r => by
    rw [insertQ]
    by_cases h : x ≤ y
    · simp [h]
    · simp [h, length_insertQ x r]

theorem length_sortQ : ∀ l : List ℚ, (sortQ l).length = l.length
  | [] => rfl
  | x :: r => by rw [sortQ, length_insertQ, length_sortQ r, List.length_cons]

theorem sortQ_ne_nil {l : List ℚ} (h : l ≠ []) : sortQ l ≠ [] := by
  intro hs
  apply h
  have := length_sortQ l
  rw [hs] at this
  exact List.length_eq_zero.mp this.symm

theorem quantileOpt_isSome {xs : List ℚ} (h : xs ≠ []) (p : ℚ) :
    ∃ m, quantileOpt xs p = some m := by
  unfold quantileOpt
  rcases hs : sortQ xs with _ | ⟨a, s⟩
  · exact absurd hs (sortQ_ne_nil h)
  · exact ⟨_, rfl⟩

theorem medianOpt_isSome {xs : List ℚ} (h : xs ≠ []) :
    ∃ m, medianOpt xs = some m :=
  quantileOpt_isSome h _

/-! ### Lemmas about column access and the header -/

theorem findCol_lt_length {df : DataFrame} {name : String} {i : Nat}
    (h : findCol df name = some i) : i < df.header.length := by
  unfold findCol at h
  exact (List.findIdx?_eq_some_iff_findIdx_eq.mp h).1

theorem mapColAt_header (df : DataFrame) (i : Nat) (g : Cell → Cell) :
    (mapColAt df i g).header = df.header := rfl

theorem mapColAt_rows_length (df : DataFrame) (i : Nat) (g : Cell → Cell) :
    (mapColAt df i g).rows.length = df.rows.length := by
  simp [mapColAt]

theorem colAt_mapColAt (df : DataFrame) (i : Nat) (g : Cell → Cell)
    (h : ∀ r ∈ df.rows, i < r.length) :
    colAt (mapColAt df i g) i = (colAt df i).map g := by
  unfold colAt mapColAt
  simp only [List.map_map]
  apply List.map_congr_left
  intro r hr
  simp only [Function.comp_apply, List.getD_eq_getElem?_getD]
  rw [List.getElem?_set_self (by simpa using h r hr)]
  rfl

/-! ### The order behind the mode tie-break -/

theorem valLe_refl (a : Val) : valLe a a = true := by
  cases a <;> simp [valLe]

theorem valLe_total (a b : Val) : valLe a b = true ∨ valLe b a = true := by
  cases a <;> cases b <;> simp [valLe] <;>
    first
      | exact le_total _ _
      | (rename_i x y; cases x <;> cases y <;> simp)

theorem valLe_trans {a b c : Val} (hab : valLe a b = true)
    (hbc : valLe b c = true) : valLe a c = true := by
  cases a <;> cases b <;> cases c <;> simp [valLe] at * <;>
    first
      | exact le_trans hab hbc
      | (rename_i x y z; cases x <;> cases y <;> cases z <;> simp_all)

theorem pickMin_mem (l : List Val) (a : Val) : pickMin a l ∈ a :: l := by
  induction l generalizing a with
  | nil => simp [pickMin]
  | cons b r ih =>
    rw [pickMin, List.foldl_cons]
    by_cases h : valLe a b = true
    · rw [if_pos h]
      change pickMin a r ∈ a :: b :: r
      rcases List.mem_cons.mp (ih a) with h1 | h1
      · rw [h1]; exact List.mem_cons_self _ _
      · exact List.mem_cons_of_mem _ (List.mem_cons_of_mem _ h1)
    · rw [if_neg h]
      change pickMin b r ∈ a :: b :: r
      rcases List.mem_cons.mp (ih b) with h1 | h1
      · rw [h1]; exact List.mem_cons_of_mem _ (List.mem_cons_self _ _)
      · exact List.mem_cons_of_mem _ (List.mem_cons_of_mem _ h1)

theorem pickMin_le (l : List Val) (a : Val) :
    ∀ x ∈ a :: l, valLe (pickMin a l) x = true := by
  induction l generalizing a with
  | nil =>
    intro x hx
    rcases List.mem_cons.mp hx with h | h
    · rw [h]; simp [pickMin, valLe_refl]
    · simp at h
  | cons b r ih =>
    intro x hx
    rw [pickMin, List.foldl_cons]
    by_cases h : valLe a b = true
    · rw [if_pos h]
      rcases List.mem_cons.mp hx with h1 | h1
      · rw [h1]; exact ih a a (List.mem_cons_self a r)
      · rcases List.mem_cons.mp h1 with h2 | h2
        · rw [h2]
          exact valLe_trans (ih a a (List.mem_cons_self a r)) h
        · exact ih a x (List.mem_cons_of_mem a h2)
    · rw [if_neg h]
      have hba : valLe b a = true := (valLe_total a b).resolve_left h
      rcases List.mem_cons.mp hx with h1 | h1
      · rw [h1]
        exact valLe_trans (ih b b (List.mem_cons_self b r)) hba
      · rcases List.mem_cons.mp h1 with h2 | h2
        · rw [h2]; exact ih b b (List.mem_cons_self b r)
        · exact ih b x (List.mem_cons_of_mem b h2)

/-! ### Fold-max lemmas for the mode frequency -/

theorem le_foldl_max_init : ∀ (l : List ℕ) (a : ℕ), a ≤ l.foldl max a
  | [], _ => le_refl _
  | b :: r, a => by
    rw [List.foldl_cons]
    exact le_trans (Nat.le_max_left a b) (le_foldl_max_init r (max a b))

theorem le_foldl_max_mem : ∀ (l : List ℕ) (a : ℕ) (x : ℕ), x ∈ l →
    x ≤ l.foldl max a
  | [], _, x, hx => by simp at hx
  | b :: r, a, x, hx => by
    rw [List.foldl_cons]
    rcases List.mem_cons.mp hx with h | h
    · subst h
      exact le_trans (Nat.le_max_right a x) (le_foldl_max_init r (max a x))
    · exact le_foldl_max_mem r (max a b) x h

theorem foldl_max_attained : ∀ (l : List ℕ) (a : ℕ),
    l.foldl max a = a ∨ ∃ x ∈ l, l.foldl max a = x
  | [], _ => Or.inl rfl
  | b :: r, a => by
    rw [List.foldl_cons]
    rcases foldl_max_attained r (max a b) with h | ⟨x, hx, hfx⟩
    · rcases max_choice a b with hm | hm
      · exact Or.inl (by rw [h, hm])
      · exact Or.inr ⟨b, List.mem_cons_self b r, by rw [h, hm]⟩
    · exact Or.inr ⟨x, List.mem_cons_of_mem b hx, hfx⟩

/-! ### Characterization of `modeOf` -/

/-- `modeOf` on a column with at least one non-missing value returns the
least (in the pandas ascending order) among the most frequent values. -/
theorem modeOf_spec (cells : List Cell)
    (hne : cells.filterMap id ≠ []) :
    ∃ m, modeOf cells = Except.ok m ∧
      m ∈ cells.filterMap id ∧
      (∀ v ∈ cells.filterMap id,
        (cells.filterMap id).count v ≤ (cells.filterMap id).count m) ∧
      (∀ v ∈ cells.filterMap id,
        (cells.filterMap id).count v = (cells.filterMap id).count m →
          valLe m v = true) := by
  rcases hd : dedupFirst (cells.filterMap id) with _ | ⟨u, us⟩
  · exfalso
    rcases List.exists_mem_of_ne_nil _ hne with ⟨x, hx⟩
    have := (mem_dedupFirst (cells.filterMap id) x).mpr hx
    rw [hd] at this
    simp at this
  · have hcount_le : ∀ v ∈ cells.filterMap id,
        (cells.filterMap id).count v ≤
          ((us.map (fun w => (cells.filterMap id).count w)).foldl max
            ((cells.filterMap id).count u)) := by
      intro v hv
      have hvd : v ∈ u :: us := by
        rw [← hd]; exact (mem_dedupFirst _ v).mpr hv
      rcases List.mem_cons.mp hvd with h | h
      · rw [h]; exact le_foldl_max_init _ _
      · exact le_foldl_max_mem _ _ _ (List.mem_map_of_mem _ h)
    have hattained : ∃ w ∈ u :: us, (cells.filterMap id).count w =
        ((us.map (fun w => (cells.filterMap id).count w)).foldl max
          ((cells.filterMap id).count u)) := by
      rcases foldl_max_attained
          (us.map (fun w => (cells.filterMap id).count w))
          ((cells.filterMap id).count u) with h | ⟨x, hx, hfx⟩
      · exact ⟨u, List.mem_cons_self u us, h.symm⟩
      · rcases List.mem_map.mp hx with ⟨w, hw, hwx⟩
        exact ⟨w, List.mem_cons_of_mem u hw, by rw [hfx, hwx]⟩
    rcases hf : (u :: us).filter (fun v =>
        decide ((cells.filterMap id).count v =
          ((us.map (fun w => (cells.filterMap id).count w)).foldl max
            ((cells.filterMap id).count u)))) with _ | ⟨c, cs⟩
    · exfalso
      rcases hattained with ⟨w, hw, hwc⟩
      have : w ∈ (u :: us).filter (fun v =>
          decide ((cells.filterMap id).count v =
            ((us.map (fun w => (cells.filterMap id).count w)).foldl max
              ((cells.filterMap id).count u)))) :=
        List.mem_filter.mpr ⟨hw, by simp [hwc]⟩
      rw [hf] at this
      simp at this
    · have hmode : modeOf cells = Except.ok (pickMin c cs) := by
        rw [modeOf, hd, modeAux, hf, modePick]
      have hm : pickMin c cs ∈ c :: cs := pickMin_mem cs c
      have hmf : pickMin c cs ∈ (u :: us).filter (fun v =>
          decide ((cells.filterMap id).count v =
            ((us.map (fun w => (cells.filterMap id).count w)).foldl max
              ((cells.filterMap id).count u)))) := by
        rw [hf]; exact hm
      have hcnt : (cells.filterMap id).count (pickMin c cs) =
          ((us.map (fun w => (cells.filterMap id).count w)).foldl max
            ((cells.filterMap id).count u)) := by
        have := (List.mem_filter.mp hmf).2
        simpa using this
      refine ⟨pickMin c cs, hmode, ?_, ?_, ?_⟩
      · have hud : pickMin c cs ∈ u :: us := (List.mem_filter.mp hmf).1
        rw [← hd] at hud
        exact (mem_dedupFirst _ _).mp hud
      · intro v hv
        rw [hcnt]
        exact hcount_le v hv
      · intro v hv hveq
        have hvmx : (cells.filterMap id).count v =
            ((us.map (fun w => (cells.filterMap id).count w)).foldl max
              ((cells.filterMap id).count u)) := by rw [hveq, hcnt]
        have hvd : v ∈ u :: us := by
          rw [← hd]; exact (mem_dedupFirst _ v).mpr hv
        have hvf : v ∈ c :: cs := by
          rw [← hf]
          exact List.mem_filter.mpr ⟨hvd, by simp [hvmx]⟩
        exact pickMin_le cs c v hvf

/-! ### Clip idempotence -/

theorem clipQ_idem (lo hi : Option ℚ) (q : ℚ) :
    clipQ lo hi (clipQ lo hi q) = clipQ lo hi q := by
  rcases lo with _ | l <;> rcases hi with _ | h <;>
    simp only [clipQ, min_def, max_def] <;> split_ifs <;> linarith

theorem clipCell_idem (lo hi : Option ℚ) (c : Cell) :
    clipCell lo hi (clipCell lo hi c) = clipCell lo hi c := by
  rcases c with _ | v
  · rfl
  · rcases v with q | s | b
    · simp [clipCell, clipQ_idem]
    · rfl
    · rfl

/-! ### Loop invariants -/

theorem fillLoop_header (step : DataFrame → String → Except String DataFrame)
    (hstep : ∀ df c df2, step df c = Except.ok df2 → df2.header = df.header) :
    ∀ (l : List String) (df : DataFrame),
      (fillLoop step df l).1.header = df.header
  | [], _ => rfl
  | c :: cs, df => by
    cases hs : step df c with
    | error e => simp only [fillLoop, hs]
    | ok df2 =>
      simp only [fillLoop, hs]
      rw [fillLoop_header step hstep cs df2]
      exact hstep df c df2 hs

theorem fillLoop_rows_length
    (step : DataFrame → String → Except String DataFrame)
    (hstep : ∀ df c df2, step df c = Except.ok df2 →
      df2.rows.length = df.rows.length) :
    ∀ (l : List String) (df : DataFrame),
      (fillLoop step df l).1.rows.length = df.rows.length
  | [], _ => rfl
  | c :: cs, df => by
    cases hs : step df c with
    | error e => simp only [fillLoop, hs]
    | ok df2 =>
      simp only [fillLoop, hs]
      rw [fillLoop_rows_length step hstep cs df2]
      exact hstep df c df2 hs

theorem fillLoop_append (step : DataFrame → String → Except String DataFrame) :
    ∀ (l1 : List String) (l2 : List String) (df df2 : DataFrame),
      fillLoop step df l1 = (df2, none) →
      fillLoop step df (l1 ++ l2) = fillLoop step df2 l2
  | [], l2, df, df2, h => by
    simp only [fillLoop, Prod.mk.injEq] at h
    rw [List.nil_append, h.1]
  | c :: cs, l2, df, df2, h => by
    cases hs : step df c with
    | error e =>
      simp only [fillLoop, hs, Prod.mk.injEq] at h
      exact absurd h.2 (by simp)
    | ok dfm =>
      simp only [fillLoop, hs] at h
      rw [List.cons_append]
      simp only [fillLoop, hs]
      exact fillLoop_append step cs l2 dfm df2 h

/-! ### Shapes of the per-column steps -/

theorem fillColMedian_ok_shape {df : DataFrame} {c : String} {df2 : DataFrame}
    (h : fillColMedian df c = Except.ok df2) :
    df2.header = df.header ∧ df2.rows.length = df.rows.length := by
  unfold fillColMedian at h
  split at h
  · cases h
  · split at h
    · cases h
    · split at h
      · cases h; exact ⟨rfl, rfl⟩
      · cases h; exact ⟨rfl, by simp [mapColAt]⟩

theorem fillColMode_ok_shape {df : DataFrame} {c : String} {df2 : DataFrame}
    (h : fillColMode df c = Except.ok df2) :
    df2.header = df.header ∧ df2.rows.length = df.rows.length := by
  unfold fillColMode at h
  split at h
  · cases h
  · split at h
    · cases h
    · cases h; exact ⟨rfl, by simp [mapColAt]⟩

theorem capCol_ok_shape {plo phi : ℚ} {df : DataFrame} {c : String}
    {df2 : DataFrame} (h : capCol plo phi df c = Except.ok df2) :
    df2.header = df.header ∧ df2.rows.length = df.rows.length := by
  unfold capCol at h
  split at h
  · cases h
  · split at h
    · cases h
    · cases h; exact ⟨rfl, by simp [mapColAt]⟩

/-! ### Shapes of the four methods -/

theorem fill_missing_shape (st : Cleaner) (strategy : String)
    (columns : Option (List String)) :
    (fill_missing st strategy columns).cleaner.df.header = st.df.header ∧
      (fill_missing st strategy columns).cleaner.df.rows.length =
        st.df.rows.length := by
  unfold fill_missing
  by_cases h1 : strategy = "median"
  · rw [if_pos h1]
    have hh := fillLoop_header fillColMedian
      (fun df c df2 h => (fillColMedian_ok_shape h).1)
      (pyOr columns st.numericCols) st.df
    have hl := fillLoop_rows_length fillColMedian
      (fun df c df2 h => (fillColMedian_ok_shape h).2)
      (pyOr columns st.numericCols) st.df
    rcases hres : fillLoop fillColMedian st.df (pyOr columns st.numericCols)
      with ⟨df2, e⟩
    rw [hres] at hh hl
    cases e <;> exact ⟨hh, hl⟩
  · rw [if_neg h1]
    by_cases h2 : strategy = "mode"
    · rw [if_pos h2]
      have hh := fillLoop_header fillColMode
        (fun df c df2 h => (fillColMode_ok_shape h).1)
        (pyOr columns st.stringCols) st.df
      have hl := fillLoop_rows_length fillColMode
        (fun df c df2 h => (fillColMode_ok_shape h).2)
        (pyOr columns st.stringCols) st.df
      rcases hres : fillLoop fillColMode st.df (pyOr columns st.stringCols)
        with ⟨df2, e⟩
      rw [hres] at hh hl
      cases e <;> exact ⟨hh, hl⟩
    · rw [if_neg h2]
      exact ⟨rfl, rfl⟩

theorem cap_outliers_shape (st : Cleaner) (plo phi : ℚ)
    (columns : Option (List String)) :
    (cap_outliers st plo phi columns).cleaner.df.header = st.df.header ∧
      (cap_outliers st plo phi columns).cleaner.df.rows.length =
        st.df.rows.length := by
  unfold cap_outliers
  have hh := fillLoop_header (capCol plo phi)
    (fun df c df2 h => (capCol_ok_shape h).1)
    (pyOr columns st.numericCols) st.df
  have hl := fillLoop_rows_length (capCol plo phi)
    (fun df c df2 h => (capCol_ok_shape h).2)
    (pyOr columns st.numericCols) st.df
  rcases hres : fillLoop (capCol plo phi) st.df (pyOr columns st.numericCols)
    with ⟨df2, e⟩
  rw [hres] at hh hl
  cases e <;> exact ⟨hh, hl⟩

theorem remove_duplicate_rows_shape (st : Cleaner) :
    (remove_duplicate_rows st).cleaner.df.header = st.df.header ∧
      (remove_duplicate_rows st).cleaner.df.rows.length ≤
        st.df.rows.length :=
  ⟨rfl, dedupFirst_length_le st.df.rows⟩

theorem prune_shape (st : Cleaner) (t : ℚ) :
    (remove_highly_correlated_features st t).cleaner.df.header.Sublist
        st.df.header ∧
      (remove_highly_correlated_features st t).cleaner.df.rows.length =
        st.df.rows.length := by
  unfold remove_highly_correlated_features
  by_cases h1 : anyTruthy st.numericCols = false
  · rw [if_pos h1]; exact ⟨List.Sublist.refl _, rfl⟩
  · rw [if_neg h1]
    by_cases h2 : st.numericCols.all
        (fun c => (findCol st.df c).isSome) = false
    · rw [if_pos h2]; exact ⟨List.Sublist.refl _, rfl⟩
    · rw [if_neg h2]
      refine ⟨List.filter_sublist _, ?_⟩
      simp [dropColumns]

/-! ### `dropColumns` on the empty drop list -/

theorem dropColumns_nil (df : DataFrame) (hwf : df.Wf) :
    dropColumns df [] = df := by
  unfold dropColumns
  have hh : df.header.filter (fun c => decide (c.name ∉ ([] : List String)))
      = df.header := by
    rw [List.filter_eq_self]
    intro c _
    simp
  have hr : df.rows.map (fun r =>
      ((df.header.zip r).filter
        (fun p => decide (p.1.name ∉ ([] : List String)))).map
          (fun p => p.2)) = df.rows := by
    have : ∀ r ∈ df.rows,
        ((df.header.zip r).filter
          (fun p => decide (p.1.name ∉ ([] : List String)))).map
            (fun p => p.2) = id r := by
      intro r hr
      have hfil : (df.header.zip r).filter
          (fun p => decide (p.1.name ∉ ([] : List String)))
            = df.header.zip r := by
        rw [List.filter_eq_self]
        intro p _
        simp
      rw [hfil]
      show (df.header.zip r).map Prod.snd = r
      exact List.map_snd_zip _ _ (le_of_eq (hwf r hr))
    rw [List.map_congr_left this, List.map_id]
  rw [hh, hr]

/-! ### Membership in the correlation drop list -/

theorem mem_corrDropGo (df : DataFrame) (t : ℚ) :
    ∀ (l earlier : List String) (x : String),
      x ∈ corrDropGo df t earlier l ↔
        ∃ pre post, l = pre ++ x :: post ∧
          ((earlier ++ pre).any (fun e =>
            corrAbsGt (colCells df e) (colCells df x) t)) = true
  | [], earlier, x => by
    rw [corrDropGo]
    simp
  | c :: rest, earlier, x => by
    rw [corrDropGo]
    by_cases hg : earlier.any
        (fun e => corrAbsGt (colCells df e) (colCells df c) t) = true
    · rw [if_pos hg]
      constructor
      · intro hx
        rcases List.mem_cons.mp hx with h1 | h1
        · refine ⟨[], rest, by rw [h1]; rfl, ?_⟩
          rw [List.append_nil]
          rw [h1]
          exact hg
        · rcases (mem_corrDropGo df t rest (earlier ++ [c]) x).mp h1
            with ⟨pre, post, hsplit, hany⟩
          refine ⟨c :: pre, post, by rw [hsplit]; rfl, ?_⟩
          rw [show earlier ++ c :: pre = (earlier ++ [c]) ++ pre by simp]
          exact hany
      · rintro ⟨pre, post, hsplit, hany⟩
        cases pre with
        | nil =>
          simp only [List.nil_append] at hsplit
          have hx : x = c := (List.cons.injEq _ _ _ _ ▸ hsplit).1.symm
          rw [hx]
          exact List.mem_cons_self _ _
        | cons p ps =>
          simp only [List.cons_append, List.cons.injEq] at hsplit
          rcases hsplit with ⟨hpc, hrest⟩
          refine List.mem_cons_of_mem _
            ((mem_corrDropGo df t rest (earlier ++ [c]) x).mpr
              ⟨ps, post, hrest, ?_⟩)
          rw [show (earlier ++ [c]) ++ ps = earlier ++ c :: ps by simp]
          rw [show (c : String) = p from hpc]
          exact hany
    · rw [if_neg hg]
      constructor
      · intro hx
        rcases (mem_corrDropGo df t rest (earlier ++ [c]) x).mp hx
          with ⟨pre, post, hsplit, hany⟩
        refine ⟨c :: pre, post, by rw [hsplit]; rfl, ?_⟩
        rw [show earlier ++ c :: pre = (earlier ++ [c]) ++ pre by simp]
        exact hany
      · rintro ⟨pre, post, hsplit, hany⟩
        cases pre with
        | nil =>
          simp only [List.nil_append] at hsplit
          have hx : x = c := (List.cons.injEq _ _ _ _ ▸ hsplit).1.symm
          rw [List.append_nil] at hany
          rw [hx] at hany
          exact absurd hany hg
        | cons p ps =>
          simp only [List.cons_append, List.cons.injEq] at hsplit
          rcases hsplit with ⟨hpc, hrest⟩
          refine (mem_corrDropGo df t rest (earlier ++ [c]) x).mpr
            ⟨ps, post, hrest, ?_⟩
          rw [show (earlier ++ [c]) ++ ps = earlier ++ c :: ps by simp]
          rw [show (c : String) = p from hpc]
          exact hany

theorem mem_corrDrop (df : DataFrame) (names : List String) (t : ℚ)
    (x : String) :
    x ∈ corrDrop df names t ↔
      ∃ pre post, names = pre ++ x :: post ∧
        ∃ e ∈ pre, corrAbsGt (colCells df e) (colCells df x) t = true := by
  unfold corrDrop
  rw [mem_corrDropGo df t names [] x]
  constructor
  · rintro ⟨pre, post, hsplit, hany⟩
    rw [List.nil_append] at hany
    rcases List.any_eq_true.mp hany with ⟨e, he, hcorr⟩
    exact ⟨pre, post, hsplit, e, he, hcorr⟩
  · rintro ⟨pre, post, hsplit, e, he, hcorr⟩
    refine ⟨pre, post, hsplit, ?_⟩
    rw [List.nil_append]
    exact List.any_eq_true.mpr ⟨e, he, hcorr⟩

/-! ### Heap preservation -/

theorem runMethod_get_other (h : Heap) (c : CleanerRef)
    (f : Cleaner → Cleaner) (a : Nat) (hne : a ≠ c.dfRef) :
    (runMethod h c f).objs.get? a = h.objs.get? a := by
  unfold runMethod heapSet
  simp only [List.get?_eq_getElem?]
  exact List.getElem?_set_ne (fun hc => hne hc.symm)

theorem runMethod_length (h : Heap) (c : CleanerRef)
    (f : Cleaner → Cleaner) :
    (runMethod h c f).objs.length = h.objs.length := by
  unfold runMethod heapSet
  simp

/-- `columns or default` when the explicit list is nonempty. -/
theorem pyOr_some_ne_nil {l : List String} (h : l ≠ [])
    (dflt : List String) : pyOr (some l) dflt = l := by
  cases l with
  | nil => exact absurd rfl h
  | cons c cs => rfl

/-- Out-of-range or in-range, re-clipping a written cell is the identity. -/
theorem set_clip_set_clip (r : Row) (i : Nat) (lo hi : Option ℚ) :
    ((r.set i (clipCell lo hi (r.getD i none))).set i
        (clipCell lo hi
          ((r.set i (clipCell lo hi (r.getD i none))).getD i none))) =
      r.set i (clipCell lo hi (r.getD i none)) := by
  by_cases hlt : i < r.length
  · rw [List.getD_eq_getElem?_getD (r.set i _),
      List.getElem?_set_self (by simpa using hlt)]
    simp only [Option.getD_some]
    rw [clipCell_idem, List.set_set]
  · have hle : r.length ≤ i := Nat.le_of_not_lt hlt
    rw [List.set_eq_of_length_le hle, List.set_eq_of_length_le hle]


/-! ### C1 -/

/-- C1 (corrected): when `fill_missing` is invoked with a strategy other
than `median`/`mode`, the `ValueError` is raised inside the method's own
`try` block and immediately caught by its `except Exception` handler: the
call returns normally with `raised = none`, the object state is unchanged,
and the configuration error is only logged — it is *not* reported to the
immediate caller. -/
theorem C1_invalid_strategy_swallowed (st : Cleaner) (strategy : String)
    (columns : Option (List String))
    (hmed : strategy ≠ "median") (hmode : strategy ≠ "mode") :
    (fill_missing st strategy columns).raised = none ∧
      (fill_missing st strategy columns).cleaner = st ∧
      (fill_missing st strategy columns).log =
        ["Error while filling missing values: Invalid strategy. Choose 'median' or 'mode'."] := by
  unfold fill_missing
  rw [if_neg hmed, if_neg hmode]
  exact ⟨rfl, rfl, rfl⟩

/-- C1 witness: the amended theorem applied to strategy `"mean"` on a
concrete cleaner. -/
theorem C1_witness :
    (fill_missing (DataCleaner.init capDf) "mean" none).raised = none ∧
      (fill_missing (DataCleaner.init capDf) "mean" none).cleaner =
        DataCleaner.init capDf ∧
      (fill_missing (DataCleaner.init capDf) "mean" none).log =
        ["Error while filling missing values: Invalid strategy. Choose 'median' or 'mode'."] :=
  C1_invalid_strategy_swallowed (DataCleaner.init capDf) "mean" none
    (by decide) (by decide)

/-- C1 counterexample: invoking `fill_missing` with the invalid strategy
`"mean"` raises nothing to the caller (`raised = none`) even though the
configuration error did occur (it is in the log) — refuting the claim that
the error is reported synchronously to the immediate caller. -/
theorem C1_counterexample :
    (fill_missing (DataCleaner.init capDf) "mean" none).raised = none ∧
      (fill_missing (DataCleaner.init capDf) "mean" none).log ≠ [] := by
  exact ⟨rfl, by decide⟩

/-! ### C2 -/

/-- C2 (corrected): inside one invocation of any cleaning pass with an
explicit column list — `fill_missing` under either strategy and
`cap_outliers` alike — a failure on one column is caught by the *method
level* handler, not per column: the columns before the failing one keep
their changes, the loop stops at the failing column, and every later
column of the list is left unprocessed; the exception never reaches the
caller and is logged.  The one failure that does not abort is the
undefined median of an entirely missing column: there the median is `NaN`
and `fillna(NaN)` raises nothing, so that column is silently skipped and
the median loop continues with the remaining columns. -/
theorem C2_pass_aborts_at_failing_column (st : Cleaner)
    (good goodM goodC : List String) (bad badM badC : String)
    (rest restM restC cs : List String)
    (df2 df2m df2c dfm : DataFrame) (e em ec : String)
    (plo phi : ℚ) (name : String) (i : Nat)
    (hgood : fillLoop fillColMode st.df good = (df2, none))
    (hbad : fillColMode df2 bad = Except.error e)
    (hgoodM : fillLoop fillColMedian st.df goodM = (df2m, none))
    (hbadM : fillColMedian df2m badM = Except.error em)
    (hgoodC : fillLoop (capCol plo phi) st.df goodC = (df2c, none))
    (hbadC : capCol plo phi df2c badC = Except.error ec)
    (hfind : findCol dfm name = some i)
    (hmiss : ∀ c ∈ colAt dfm i, c = none) :
    fill_missing st "mode" (some (good ++ bad :: rest)) =
      ⟨{ st with df := df2 }, none,
        ["Error while filling missing values: " ++ e]⟩ ∧
    fill_missing st "median" (some (goodM ++ badM :: restM)) =
      ⟨{ st with df := df2m }, none,
        ["Error while filling missing values: " ++ em]⟩ ∧
    cap_outliers st plo phi (some (goodC ++ badC :: restC)) =
      ⟨{ st with df := df2c }, none,
        ["Error while capping outliers: " ++ ec]⟩ ∧
    fillColMedian dfm name = Except.ok dfm ∧
    fillLoop fillColMedian dfm (name :: cs) =
      fillLoop fillColMedian dfm cs := by
  have hskip : fillColMedian dfm name = Except.ok dfm := by
    have hstrict : strictNums (colAt dfm i) =
        Except.ok (numsOf (colAt dfm i)) := by
      unfold strictNums
      rw [if_pos]
      rw [List.all_eq_true]
      intro c hc
      rw [hmiss c hc]
    have hnums : numsOf (colAt dfm i) = [] := by
      unfold numsOf
      rw [List.filterMap_eq_nil_iff]
      intro c hc
      rw [hmiss c hc]
    simp only [fillColMedian, hfind, hstrict, hnums]
    rfl
  refine ⟨?_, ?_, ?_, hskip, ?_⟩
  · unfold fill_missing
    rw [if_neg (by decide), if_pos rfl]
    rw [pyOr_some_ne_nil (by simp) st.stringCols]
    rw [fillLoop_append fillColMode good (bad :: rest) st.df df2 hgood]
    simp only [fillLoop, hbad]
  · unfold fill_missing
    rw [if_pos rfl]
    rw [pyOr_some_ne_nil (by simp) st.numericCols]
    rw [fillLoop_append fillColMedian goodM (badM :: restM) st.df df2m
      hgoodM]
    simp only [fillLoop, hbadM]
  · unfold cap_outliers
    rw [pyOr_some_ne_nil (by simp) st.numericCols]
    rw [fillLoop_append (capCol plo phi) goodC (badC :: restC) st.df df2c
      hgoodC]
    simp only [fillLoop, hbadC]
  · simp only [fillLoop, hskip]

/-- C2 witness: on concrete frames, the mode pass fills the first listed
column `c`, then fails on the missing column `nope` with the trailing
column unprocessed; the median pass and the capper fail the same way on
`nope` with their later columns unprocessed; and the all-missing float64
column `e` of `allMissDf` raises nothing under the median strategy — its
loop iteration is a no-op and the loop continues with the remaining
columns. -/
theorem C2_witness :
    fill_missing (DataCleaner.init modeAbortDf) "mode"
        (some (["c"] ++ "nope" :: ["c"])) =
      ⟨{ DataCleaner.init modeAbortDf with df := modeFilledDf }, none,
        ["Error while filling missing values: KeyError: nope"]⟩ ∧
    fill_missing (DataCleaner.init modeAbortDf) "median"
        (some (([] : List String) ++ "nope" :: ["c"])) =
      ⟨{ DataCleaner.init modeAbortDf with df := modeAbortDf }, none,
        ["Error while filling missing values: KeyError: nope"]⟩ ∧
    cap_outliers (DataCleaner.init modeAbortDf) (1 / 100) (99 / 100)
        (some (([] : List String) ++ "nope" :: ["c"])) =
      ⟨{ DataCleaner.init modeAbortDf with df := modeAbortDf }, none,
        ["Error while capping outliers: KeyError: nope"]⟩ ∧
    fillColMedian allMissDf "e" = Except.ok allMissDf ∧
    fillLoop fillColMedian allMissDf ("e" :: ["m"]) =
      fillLoop fillColMedian allMissDf ["m"] :=
  C2_pass_aborts_at_failing_column (DataCleaner.init modeAbortDf)
    ["c"] [] [] "nope" "nope" "nope" ["c"] ["c"] ["c"] ["m"]
    modeFilledDf modeAbortDf modeAbortDf allMissDf
    "KeyError: nope" "KeyError: nope" "KeyError: nope"
    (1 / 100) (99 / 100) "e" 0
    (by with_unfolding_all rfl) (by with_unfolding_all rfl)
    (by with_unfolding_all rfl) (by with_unfolding_all rfl)
    (by with_unfolding_all rfl) (by with_unfolding_all rfl)
    (by decide) (by decide)

/-- C2 counterexample: with the explicit list `["nope", "c"]`, the absent
column `nope` fails first and the pass stops: column `c` — which is
present, has a well-defined mode `"x"`, and still contains a missing
cell — is *not* processed, refuting "a single bad column never prevents
later columns of the same pass from being processed". -/
theorem C2_counterexample :
    (fill_missing (DataCleaner.init modeAbortDf) "mode"
        (some ["nope", "c"])).cleaner.df = modeAbortDf ∧
      modeOf (colAt modeAbortDf 0) = Except.ok (Val.str "x") ∧
      (none : Cell) ∈ colAt modeAbortDf 0 := by
  refine ⟨rfl, rfl, ?_⟩
  decide

/-! ### C4 -/

/-- C4 (corrected): capping is idempotent only for *fixed value bounds*:
re-clipping a column with the same lower/upper values it was just clipped
to changes nothing.  `cap_outliers` itself recomputes the percentile
bounds from the current data, so a second invocation with the same
percentile pair can cap further (see the counterexample). -/
theorem C4_clip_fixed_bounds_idempotent (df : DataFrame) (i : Nat)
    (lo hi : Option ℚ) :
    mapColAt (mapColAt df i (clipCell lo hi)) i (clipCell lo hi) =
      mapColAt df i (clipCell lo hi) := by
  unfold mapColAt
  simp only [List.map_map]
  have : ∀ r ∈ df.rows,
      ((fun r => r.set i (clipCell lo hi (r.getD i none))) ∘
        (fun r => r.set i (clipCell lo hi (r.getD i none)))) r =
        (fun r => r.set i (clipCell lo hi (r.getD i none))) r := by
    intro r _
    exact set_clip_set_clip r i lo hi
  rw [List.map_congr_left this]

/-- C4 counterexample: on the single float64 column `(0, 100)` with the
default percentiles `(0.01, 0.99)`, the first `cap_outliers` produces
`(1, 99)` and a second identical invocation produces `(1.98, 98.02)` —
applying the capper twice with the same percentile bounds does not equal
applying it once, refuting idempotence as claimed. -/
theorem C4_counterexample :
    (cap_outliers
        (cap_outliers (DataCleaner.init capDf) (1 / 100) (99 / 100)
          none).cleaner
        (1 / 100) (99 / 100) none).cleaner.df ≠
      (cap_outliers (DataCleaner.init capDf) (1 / 100) (99 / 100)
        none).cleaner.df := by
  with_unfolding_all decide

/-! ### C5 and C7: the per-column fill characterizations -/


/-- Filling only the missing cells leaves the numeric values at the
originally non-missing positions exactly as they were. -/
theorem keptNums_fill (cells : List Cell) (w : Val) :
    keptNums cells (cells.map (fun c =>
      match c with
      | none => some w
      | some v => some v)) = numsOf cells := by
  induction cells with
  | nil => rfl
  | cons c r ih =>
    cases c with
    | none =>
      simp only [List.map_cons, keptNums, List.zip_cons_cons,
        List.filterMap_cons] at *
      exact ih
    | some v =>
      cases v with
      | num q =>
        simp only [List.map_cons, keptNums, List.zip_cons_cons,
          List.filterMap_cons, numsOf] at *
        rw [ih]
      | str s =>
        simp only [List.map_cons, keptNums, List.zip_cons_cons,
          List.filterMap_cons, numsOf] at *
        exact ih
      | boolV b =>
        simp only [List.map_cons, keptNums, List.zip_cons_cons,
          List.filterMap_cons, numsOf] at *
        exact ih

/-- C7 (confirmed): for a numeric target column (all non-missing cells
numeric) that is not entirely missing, `fill_missing` with strategy
`median` replaces exactly the missing cells by the median of the
non-missing values: afterwards no missing value remains in the column,
every originally non-missing cell is unchanged, and the median over the
originally non-missing positions is unchanged. -/
theorem C7_median_fill (st : Cleaner) (name : String) (i : Nat)
    (hwf : st.df.Wf)
    (hfind : findCol st.df name = some i)
    (hnum : (colAt st.df i).all (fun c =>
      match c with
      | some (Val.num _) => true
      | none => true
      | _ => false) = true)
    (hne : numsOf (colAt st.df i) ≠ []) :
    ∃ m, medianOpt (numsOf (colAt st.df i)) = some m ∧
      (fill_missing st "median" (some [name])).cleaner.df =
        mapColAt st.df i (fun c =>
          match c with
          | none => some (Val.num m)
          | some v => some v) ∧
      (∀ c ∈ colAt (fill_missing st "median" (some [name])).cleaner.df i,
        c.isSome) ∧
      (∀ k v, (colAt st.df i).get? k = some (some v) →
        (colAt (fill_missing st "median" (some [name])).cleaner.df i).get? k
          = some (some v)) ∧
      medianOpt (keptNums (colAt st.df i)
          (colAt (fill_missing st "median" (some [name])).cleaner.df i)) =
        medianOpt (numsOf (colAt st.df i)) := by
  rcases medianOpt_isSome hne with ⟨m, hm⟩
  have hstrict : strictNums (colAt st.df i) =
      Except.ok (numsOf (colAt st.df i)) := by
    unfold strictNums
    rw [if_pos hnum]
  have hstep : fillColMedian st.df name =
      Except.ok (mapColAt st.df i (fun c =>
        match c with
        | none => some (Val.num m)
        | some v => some v)) := by
    simp only [fillColMedian, hfind, hstrict, hm]
  have hfill : (fill_missing st "median" (some [name])).cleaner.df =
      mapColAt st.df i (fun c =>
        match c with
        | none => some (Val.num m)
        | some v => some v) := by
    unfold fill_missing
    rw [if_pos rfl]
    simp only [pyOr, fillLoop, hstep]
  have hlen : ∀ r ∈ st.df.rows, i < r.length := by
    intro r hr
    rw [hwf r hr]
    exact findCol_lt_length hfind
  have hcol : colAt (fill_missing st "median" (some [name])).cleaner.df i =
      (colAt st.df i).map (fun c =>
        match c with
        | none => some (Val.num m)
        | some v => some v) := by
    rw [hfill]
    exact colAt_mapColAt st.df i _ hlen
  refine ⟨m, hm, hfill, ?_, ?_, ?_⟩
  · intro c hc
    rw [hcol] at hc
    rcases List.mem_map.mp hc with ⟨orig, _, horig⟩
    cases orig with
    | none => rw [← horig]; rfl
    | some v => rw [← horig]; rfl
  · intro k v hk
    rw [hcol]
    rw [List.get?_eq_getElem?, List.getElem?_map]
    rw [List.get?_eq_getElem?] at hk
    rw [hk]
    rfl
  · rw [hcol, keptNums_fill]

/-- C7 witness: the concrete column `(1, missing, 3)` is median-filled to
`(1, 2, 3)`. -/
theorem C7_witness :
    ∃ m, medianOpt (numsOf (colAt medDf 0)) = some m ∧
      (fill_missing (DataCleaner.init medDf) "median"
          (some ["m"])).cleaner.df =
        mapColAt medDf 0 (fun c =>
          match c with
          | none => some (Val.num m)
          | some v => some v) ∧
      (∀ c ∈ colAt (fill_missing (DataCleaner.init medDf) "median"
          (some ["m"])).cleaner.df 0, c.isSome) ∧
      (∀ k v, (colAt medDf 0).get? k = some (some v) →
        (colAt (fill_missing (DataCleaner.init medDf) "median"
          (some ["m"])).cleaner.df 0).get? k = some (some v)) ∧
      medianOpt (keptNums (colAt medDf 0)
          (colAt (fill_missing (DataCleaner.init medDf) "median"
            (some ["m"])).cleaner.df 0)) =
        medianOpt (numsOf (colAt medDf 0)) :=
  C7_median_fill (DataCleaner.init medDf) "m" 0
    (by decide) (by with_unfolding_all decide)
    (by with_unfolding_all decide) (by with_unfolding_all decide)

/-- C5 (corrected): for a categorical target column with at least one
non-missing value, mode fill replaces each missing cell with `mode()[0]`:
a most frequent non-missing value, with a frequency tie broken in favor of
the *smallest* value in the pandas ascending sort order — not the value
encountered first in row order. -/
theorem C5_mode_fill (st : Cleaner) (name : String) (i : Nat)
    (hwf : st.df.Wf)
    (hfind : findCol st.df name = some i)
    (hne : (colAt st.df i).filterMap id ≠ []) :
    ∃ m, modeOf (colAt st.df i) = Except.ok m ∧
      m ∈ (colAt st.df i).filterMap id ∧
      (∀ v ∈ (colAt st.df i).filterMap id,
        ((colAt st.df i).filterMap id).count v ≤
          ((colAt st.df i).filterMap id).count m) ∧
      (∀ v ∈ (colAt st.df i).filterMap id,
        ((colAt st.df i).filterMap id).count v =
          ((colAt st.df i).filterMap id).count m → valLe m v = true) ∧
      (fill_missing st "mode" (some [name])).cleaner.df =
        mapColAt st.df i (fun c =>
          match c with
          | none => some m
          | some v => some v) ∧
      (∀ c ∈ colAt (fill_missing st "mode" (some [name])).cleaner.df i,
        c.isSome) := by
  rcases modeOf_spec (colAt st.df i) hne with ⟨m, hmode, hmem, hmax, htie⟩
  have hstep : fillColMode st.df name =
      Except.ok (mapColAt st.df i (fun c =>
        match c with
        | none => some m
        | some v => some v)) := by
    simp only [fillColMode, hfind, hmode]
  have hfill : (fill_missing st "mode" (some [name])).cleaner.df =
      mapColAt st.df i (fun c =>
        match c with
        | none => some m
        | some v => some v) := by
    unfold fill_missing
    rw [if_neg (by decide), if_pos rfl]
    simp only [pyOr, fillLoop, hstep]
  have hlen : ∀ r ∈ st.df.rows, i < r.length := by
    intro r hr
    rw [hwf r hr]
    exact findCol_lt_length hfind
  refine ⟨m, hmode, hmem, hmax, htie, hfill, ?_⟩
  intro c hc
  rw [hfill, colAt_mapColAt st.df i _ hlen] at hc
  rcases List.mem_map.mp hc with ⟨orig, _, horig⟩
  cases orig with
  | none => rw [← horig]; rfl
  | some v => rw [← horig]; rfl

/-- C5 witness: the amended theorem applied to a concrete tied column. -/
theorem C5_witness :
    ∃ m, modeOf (colAt tieDf 0) = Except.ok m ∧
      m ∈ (colAt tieDf 0).filterMap id ∧
      (∀ v ∈ (colAt tieDf 0).filterMap id,
        ((colAt tieDf 0).filterMap id).count v ≤
          ((colAt tieDf 0).filterMap id).count m) ∧
      (∀ v ∈ (colAt tieDf 0).filterMap id,
        ((colAt tieDf 0).filterMap id).count v =
          ((colAt tieDf 0).filterMap id).count m → valLe m v = true) ∧
      (fill_missing (DataCleaner.init tieDf) "mode"
          (some ["c"])).cleaner.df =
        mapColAt tieDf 0 (fun c =>
          match c with
          | none => some m
          | some v => some v) ∧
      (∀ c ∈ colAt (fill_missing (DataCleaner.init tieDf) "mode"
          (some ["c"])).cleaner.df 0, c.isSome) :=
  C5_mode_fill (DataCleaner.init tieDf) "c" 0
    (by decide) (by with_unfolding_all decide) (by with_unfolding_all decide)

/-- C5 counterexample: in the column `("b", "a", missing)` the values
`"b"` and `"a"` are tied for most frequent and `"b"` is encountered first
in row order, yet the missing cell is filled with `"a"` (the smaller
value, per `mode()` ascending sort plus `[0]`), refuting the
first-encountered tie-break. -/
theorem C5_counterexample :
    (fill_missing (DataCleaner.init tieDf) "mode" none).cleaner.df.rows =
        [[some (Val.str "b")], [some (Val.str "a")], [some (Val.str "a")]] ∧
      (colAt tieDf 0).filterMap id = [Val.str "b", Val.str "a"] ∧
      ((colAt tieDf 0).filterMap id).count (Val.str "b") =
        ((colAt tieDf 0).filterMap id).count (Val.str "a") ∧
      Val.str "a" ≠ Val.str "b" := by
  exact ⟨by with_unfolding_all rfl, rfl, rfl, by decide⟩

/-! ### C6 -/

/-- C6 (confirmed): `remove_duplicate_rows` replaces the rows by their
keep-first deduplication (rows compare cell-wise, missing equal to
missing): exactly the rows equal to an earlier row are removed, the first
occurrence is kept and the relative order of kept rows is preserved (the
result is a sublist with the same members and no duplicates), the row
count never grows, and running the remover a second time changes
nothing. -/
theorem C6_remove_duplicates (st : Cleaner) :
    (remove_duplicate_rows st).cleaner.df.rows = dedupFirst st.df.rows ∧
      (remove_duplicate_rows st).cleaner.df.header = st.df.header ∧
      dedupFirst st.df.rows = keepFirstOccurrences st.df.rows ∧
      (dedupFirst st.df.rows).Sublist st.df.rows ∧
      (∀ r : Row, r ∈ dedupFirst st.df.rows ↔ r ∈ st.df.rows) ∧
      (dedupFirst st.df.rows).Nodup ∧
      (dedupFirst st.df.rows).length ≤ st.df.rows.length ∧
      (remove_duplicate_rows (remove_duplicate_rows st).cleaner).cleaner =
        (remove_duplicate_rows st).cleaner := by
  refine ⟨rfl, rfl, dedupFirst_eq_keepFirst _, dedupFirst_sublist _,
    fun r => mem_dedupFirst _ r, dedupFirst_nodup _,
    dedupFirst_length_le _, ?_⟩
  unfold remove_duplicate_rows
  rw [dedupFirst_idem]

/-! ### C3 -/

/-- C3 (confirmed): `remove_highly_correlated_features` with threshold `t`
drops, in a single pass over the correlation matrix of the input, exactly
the numeric columns having some earlier numeric column whose absolute
Pearson correlation with them exceeds `t` (membership characterization of
the drop list, and the result is the input with the drop list removed);
with fewer than two numeric columns the method is a no-op; and in the
concrete two-column scenario with correlation exactly 0.95 and threshold
0.9, the later column `y` is dropped while `x` survives. -/
theorem C3_correlated_pruning (st : Cleaner) (t : ℚ) (hwf : st.df.Wf) :
    (∀ x, x ∈ corrDrop st.df st.numericCols t ↔
      ∃ pre post, st.numericCols = pre ++ x :: post ∧
        ∃ e ∈ pre,
          corrAbsGt (colCells st.df e) (colCells st.df x) t = true) ∧
    (anyTruthy st.numericCols = true →
      st.numericCols.all (fun c => (findCol st.df c).isSome) = true →
      (remove_highly_correlated_features st t).cleaner.df =
        dropColumns st.df (corrDrop st.df st.numericCols t)) ∧
    (∀ names : List String,
      (dropColumns st.df names).header =
        st.df.header.filter (fun c => decide (c.name ∉ names))) ∧
    (st.numericCols.length < 2 →
      (remove_highly_correlated_features st t).cleaner = st) ∧
    ((remove_highly_correlated_features (DataCleaner.init corrDf)
        (9 / 10)).cleaner.df.header.map Col.name = ["x"] ∧
      covS (pairedNums (colCells corrDf "x") (colCells corrDf "y")) ^ 2
          * 400 =
        361 * varXS (pairedNums (colCells corrDf "x") (colCells corrDf "y"))
          * varYS (pairedNums (colCells corrDf "x")
              (colCells corrDf "y"))) := by
  refine ⟨fun x => mem_corrDrop st.df st.numericCols t x, ?_, fun _ => rfl,
    ?_, by with_unfolding_all decide, ?_⟩
  · intro h1 h2
    unfold remove_highly_correlated_features
    rw [if_neg (by simp [h1]), if_neg (by simp [h2])]
  · intro hlt
    unfold remove_highly_correlated_features
    by_cases h1 : anyTruthy st.numericCols = false
    · rw [if_pos h1]
    · rw [if_neg h1]
      by_cases h2 : st.numericCols.all
          (fun c => (findCol st.df c).isSome) = false
      · rw [if_pos h2]
      · rw [if_neg h2]
        have hdrop : corrDrop st.df st.numericCols t = [] := by
          rcases hsn : st.numericCols with _ | ⟨c0, rest⟩
          · rfl
          · rcases rest with _ | ⟨c1, r2⟩
            · simp [corrDrop, corrDropGo]
            · exfalso
              have hL := congrArg List.length hsn
              simp only [List.length_cons] at hL
              omega
        rw [hdrop, dropColumns_nil st.df hwf]
  · have h1 : covS (pairedNums (colCells corrDf "x")
        (colCells corrDf "y")) = 95 := by
      with_unfolding_all decide
    have h2 : varXS (pairedNums (colCells corrDf "x")
        (colCells corrDf "y")) = 50 := by
      with_unfolding_all decide
    have h3 : varYS (pairedNums (colCells corrDf "x")
        (colCells corrDf "y")) = 200 := by
      with_unfolding_all decide
    rw [h1, h2, h3]
    norm_num

/-- C3 witness: the theorem applied to the concrete 0.95-correlated
two-column frame at threshold 0.9. -/
theorem C3_witness :
    (∀ x, x ∈ corrDrop (DataCleaner.init corrDf).df
        (DataCleaner.init corrDf).numericCols (9 / 10) ↔
      ∃ pre post,
        (DataCleaner.init corrDf).numericCols = pre ++ x :: post ∧
        ∃ e ∈ pre,
          corrAbsGt (colCells (DataCleaner.init corrDf).df e)
            (colCells (DataCleaner.init corrDf).df x) (9 / 10) = true) ∧
    (anyTruthy (DataCleaner.init corrDf).numericCols = true →
      (DataCleaner.init corrDf).numericCols.all
        (fun c => (findCol (DataCleaner.init corrDf).df c).isSome) = true →
      (remove_highly_correlated_features (DataCleaner.init corrDf)
          (9 / 10)).cleaner.df =
        dropColumns (DataCleaner.init corrDf).df
          (corrDrop (DataCleaner.init corrDf).df
            (DataCleaner.init corrDf).numericCols (9 / 10))) ∧
    (∀ names : List String,
      (dropColumns (DataCleaner.init corrDf).df names).header =
        (DataCleaner.init corrDf).df.header.filter
          (fun c => decide (c.name ∉ names))) ∧
    ((DataCleaner.init corrDf).numericCols.length < 2 →
      (remove_highly_correlated_features (DataCleaner.init corrDf)
        (9 / 10)).cleaner = DataCleaner.init corrDf) ∧
    ((remove_highly_correlated_features (DataCleaner.init corrDf)
        (9 / 10)).cleaner.df.header.map Col.name = ["x"] ∧
      covS (pairedNums (colCells corrDf "x") (colCells corrDf "y")) ^ 2
          * 400 =
        361 * varXS (pairedNums (colCells corrDf "x") (colCells corrDf "y"))
          * varYS (pairedNums (colCells corrDf "x")
              (colCells corrDf "y"))) :=
  C3_correlated_pruning (DataCleaner.init corrDf) (9 / 10) (by decide)

/-! ### C8 -/

/-- C8 (corrected): `__init__` classifies by pandas dtype: the numeric set
is exactly the columns of dtype `float64`/`int64` and the categorical
(string) set exactly the columns of dtype `object`; for distinct column
names the two sets are disjoint, but they need not cover all columns — a
column of any other dtype (`bool`, `int32`, `float32`, `datetime64`)
belongs to neither set, and an entirely missing column is classified by
its dtype (an all-`NaN` `float64` column is numeric), not as
categorical. -/
theorem C8_classification (df : DataFrame) (c : Col)
    (hnodup : (df.header.map Col.name).Nodup)
    (hc : c ∈ df.header) :
    (c.name ∈ numericColsOf df ↔
      (c.dtype = Dtype.float64 ∨ c.dtype = Dtype.int64)) ∧
    (c.name ∈ stringColsOf df ↔ c.dtype = Dtype.obj) ∧
    ¬ (c.name ∈ numericColsOf df ∧ c.name ∈ stringColsOf df) := by
  have hinj := List.inj_on_of_nodup_map hnodup
  have hnum : c.name ∈ numericColsOf df ↔
      (c.dtype = Dtype.float64 ∨ c.dtype = Dtype.int64) := by
    unfold numericColsOf
    constructor
    · intro hmem
      rcases List.mem_map.mp hmem with ⟨c', hc', hname⟩
      have hcf := List.mem_filter.mp hc'
      have heq : c' = c := hinj hcf.1 hc hname
      have := hcf.2
      rw [heq] at this
      simpa using this
    · intro hd
      exact List.mem_map.mpr
        ⟨c, List.mem_filter.mpr ⟨hc, by simpa using hd⟩, rfl⟩
  have hstr : c.name ∈ stringColsOf df ↔ c.dtype = Dtype.obj := by
    unfold stringColsOf
    constructor
    · intro hmem
      rcases List.mem_map.mp hmem with ⟨c', hc', hname⟩
      have hcf := List.mem_filter.mp hc'
      have heq : c' = c := hinj hcf.1 hc hname
      have := hcf.2
      rw [heq] at this
      simpa using this
    · intro hd
      exact List.mem_map.mpr
        ⟨c, List.mem_filter.mpr ⟨hc, by simpa using hd⟩, rfl⟩
  refine ⟨hnum, hstr, ?_⟩
  rintro ⟨h1, h2⟩
  rcases hnum.mp h1 with h3 | h3 <;> rw [hstr.mp h2] at h3 <;> cases h3

/-- C8 witness: the classification theorem applied to the entirely missing
`float64` column of a concrete frame (classified numeric, by dtype). -/
theorem C8_witness :
    ((⟨"empty", Dtype.float64⟩ : Col).name ∈ numericColsOf classDf ↔
      ((⟨"empty", Dtype.float64⟩ : Col).dtype = Dtype.float64 ∨
        (⟨"empty", Dtype.float64⟩ : Col).dtype = Dtype.int64)) ∧
    ((⟨"empty", Dtype.float64⟩ : Col).name ∈ stringColsOf classDf ↔
      (⟨"empty", Dtype.float64⟩ : Col).dtype = Dtype.obj) ∧
    ¬ ((⟨"empty", Dtype.float64⟩ : Col).name ∈ numericColsOf classDf ∧
      (⟨"empty", Dtype.float64⟩ : Col).name ∈ stringColsOf classDf) :=
  C8_classification classDf ⟨"empty", Dtype.float64⟩ (by decide) (by decide)

/-- C8 counterexample: in a frame with a `bool` column `flag` and an
entirely missing `float64` column `empty`, the column `flag` is in
*neither* the numeric nor the categorical set (the two sets do not cover
all columns), and the entirely missing column is classified *numeric* —
refuting both the exact-cover part and the missing-column-is-categorical
part of the claim. -/
theorem C8_counterexample :
    (⟨"flag", Dtype.boolDt⟩ : Col) ∈ classDf.header ∧
      "flag" ∉ numericColsOf classDf ∧
      "flag" ∉ stringColsOf classDf ∧
      (∀ c ∈ colAt classDf 1, c = none) ∧
      "empty" ∈ numericColsOf classDf ∧
      "empty" ∉ stringColsOf classDf := by
  decide

/-! ### C9 -/

/-- C9 (confirmed): across the full `clean_data` pipeline, the capper and
filler change neither the header nor the row count; only the duplicate
remover changes the row count, and only downward; only the pruner changes
the column set, and only by dropping columns (its header is a sublist of
its input's header, so no stage adds or renames columns). -/
theorem C9_pipeline_shape (df : DataFrame) (strategy : String) :
    (cleanS1 df).df.header = df.header ∧
      (cleanS1 df).df.rows.length = df.rows.length ∧
      (cleanS2 df strategy).df.header = (cleanS1 df).df.header ∧
      (cleanS2 df strategy).df.rows.length =
        (cleanS1 df).df.rows.length ∧
      (cleanS3 df strategy).df.header = (cleanS2 df strategy).df.header ∧
      (cleanS3 df strategy).df.rows.length ≤
        (cleanS2 df strategy).df.rows.length ∧
      (cleanS4 df strategy).df.header.Sublist
        (cleanS3 df strategy).df.header ∧
      (cleanS4 df strategy).df.rows.length =
        (cleanS3 df strategy).df.rows.length :=
  ⟨(cap_outliers_shape (DataCleaner.init df) (1 / 100) (99 / 100) none).1,
    (cap_outliers_shape (DataCleaner.init df) (1 / 100) (99 / 100) none).2,
    (fill_missing_shape (cleanS1 df) strategy none).1,
    (fill_missing_shape (cleanS1 df) strategy none).2,
    (remove_duplicate_rows_shape (cleanS2 df strategy)).1,
    (remove_duplicate_rows_shape (cleanS2 df strategy)).2,
    (prune_shape (cleanS3 df strategy) (9 / 10)).1,
    (prune_shape (cleanS3 df strategy) (9 / 10)).2⟩

/-! ### C10 -/

/-- C10 (confirmed): under the heap semantics, `__init__` copies the
caller's DataFrame into a freshly allocated object and every cleaning
method writes only through that fresh reference, so after `clean_data`
(and likewise after each individual method) the caller's object is
exactly what it was before. -/
theorem C10_caller_df_preserved (h : Heap) (a : Nat) (strategy : String)
    (ha : a < h.objs.length) :
    (runCleanData (initRef h a).1 (initRef h a).2 strategy).objs.get? a =
        h.objs.get? a ∧
      (runCap (initRef h a).1 (initRef h a).2).objs.get? a =
        h.objs.get? a ∧
      (runFill (initRef h a).1 (initRef h a).2 strategy).objs.get? a =
        h.objs.get? a ∧
      (runDedup (initRef h a).1 (initRef h a).2).objs.get? a =
        h.objs.get? a ∧
      (runPrune (initRef h a).1 (initRef h a).2).objs.get? a =
        h.objs.get? a := by
  have hne : a ≠ (initRef h a).2.dfRef := by
    show a ≠ h.objs.length
    omega
  have hinit : (initRef h a).1.objs.get? a = h.objs.get? a := by
    show (h.objs ++ [heapGet h a]).get? a = h.objs.get? a
    rw [List.get?_eq_getElem?, List.get?_eq_getElem?,
      List.getElem?_append_left ha]
  have hstep : ∀ (hp : Heap) (f : Cleaner → Cleaner),
      (runMethod hp (initRef h a).2 f).objs.get? a = hp.objs.get? a :=
    fun hp f => runMethod_get_other hp _ f a hne
  refine ⟨?_, ?_, ?_, ?_, ?_⟩
  · unfold runCleanData runPrune runDedup runFill runCap
    rw [hstep, hstep, hstep, hstep, hinit]
  · unfold runCap
    rw [hstep, hinit]
  · unfold runFill
    rw [hstep, hinit]
  · unfold runDedup
    rw [hstep, hinit]
  · unfold runPrune
    rw [hstep, hinit]

/-- C10 witness: a concrete heap holding one frame at address 0; the
pipeline leaves that address untouched. -/
theorem C10_witness :
    (runCleanData (initRef ⟨[medDf]⟩ 0).1 (initRef ⟨[medDf]⟩ 0).2
        "median").objs.get? 0 = (⟨[medDf]⟩ : Heap).objs.get? 0 ∧
      (runCap (initRef ⟨[medDf]⟩ 0).1 (initRef ⟨[medDf]⟩ 0).2).objs.get? 0 =
        (⟨[medDf]⟩ : Heap).objs.get? 0 ∧
      (runFill (initRef ⟨[medDf]⟩ 0).1 (initRef ⟨[medDf]⟩ 0).2
        "median").objs.get? 0 = (⟨[medDf]⟩ : Heap).objs.get? 0 ∧
      (runDedup (initRef ⟨[medDf]⟩ 0).1
        (initRef ⟨[medDf]⟩ 0).2).objs.get? 0 =
        (⟨[medDf]⟩ : Heap).objs.get? 0 ∧
      (runPrune (initRef ⟨[medDf]⟩ 0).1
        (initRef ⟨[medDf]⟩ 0).2).objs.get? 0 =
        (⟨[medDf]⟩ : Heap).objs.get? 0 :=
  C10_caller_df_preserved ⟨[medDf]⟩ 0 "median" (by decide)

end DataPipeline
